import Mathlib

/-!
Shallow embedding of `src/dicom.py` (repository scream-dev/dicom-to-png).

The program converts DICOM medical images to PNG.  Its pieces:
 - `mri_to_png` (dicom.py lines 9-52): decode, normalize the pixel grid to
   8-bit, encode; every exception raised inside is wrapped into a generic
   `RuntimeError`.
 - `convert_file` (lines 54-79): precondition checks, directory creation,
   conversion, and deletion of the partially written output on failure.
 - `convert_folder` (lines 81-124): recursive traversal with per-file
   SUCCESS / SKIP / FAIL classification and running counters.

Modelling conventions:
 - pixel grids are `List (List Int)`; numpy's float computation
   `((a / max) * 255).astype(uint8)` on non-negative data equals the exact
   mathematical floor of the rational value, which for integer inputs is
   integer (Euclidean) division - the embedding uses exact integer
   arithmetic, and the claim theorems relate it to the rational floor;
 - numpy's `astype(np.uint8)` on an integer array reduces modulo 2^8;
 - the filesystem is explicit state: a list of (path, bytes) files plus a
   list of directories, paths being component lists (`os.path.abspath` is
   the identity here: paths are already in canonical component form);
 - the external collaborators (pydicom decode, png encode) are modelled by
   an explicit per-file behaviour value `MriStep` saying how the decode and
   encode steps behave for that input, and the encoded output bytes are
   opaque (modelled from the spec: the raster encoder serializes the
   normalized grid; we use the flattened sample list as its stand-in).
-/

namespace DicomPng

/-! ## Intensity normalizer (dicom.py lines 26-42) -/

/-- Element type of the decoded pixel array: `np.uint16`, `np.uint8`, or any
other integer dtype (the `else` branch of lines 36-42). -/
inductive DType where
  | uint16
  | uint8
  | other
deriving DecidableEq

/-- All samples of a 2D grid in row-major order (`pixel_array` flattened). -/
def flatSamples (g : List (List Int)) : List Int :=
  g.foldr (fun row acc => row ++ acc) []

/-- Maximum of a list of samples, as `pixel_array.max()` computes it on a
non-empty array.  On `[]` numpy raises; the value 0 returned here is never
relied upon: every theorem about extrema assumes a non-empty grid. -/
def listMax : List Int → Int
  | [] => 0
  | a :: as => as.foldl max a

/-- Minimum of a list of samples (`pixel_array.min()`), conventions as in
`listMax`. -/
def listMin : List Int → Int
  | [] => 0
  | a :: as => as.foldl min a

def gridMax (g : List (List Int)) : Int := listMax (flatSamples g)

def gridMin (g : List (List Int)) : Int := listMin (flatSamples g)

/-- Truncation of an integer sample to 8 bits: numpy's
`astype(np.uint8)` on an integer array reduces modulo 2^8. -/
def truncU8 (s : Int) : Int := s % 256

/-- The normalizer of `mri_to_png`, dicom.py lines 27-42.  Branch order as
in the source: `np.uint16` first, then `np.uint8`, then every other dtype.
The float expressions `((a / max) * 255).astype(uint8)` and
`((a - min) / (max - min) * 255).astype(uint8)` are modelled by exact
integer floor division (see the header comment). -/
def mriNormalize (dt : DType) (g : List (List Int)) : List (List Int) :=
  match dt with
  | .uint16 =>
    if 0 < gridMax g then
      g.map (fun row => row.map (fun s => s * 255 / gridMax g))
    else
      g.map (fun row => row.map truncU8)
  | .uint8 => g
  | .other =>
    if gridMin g < gridMax g then
      g.map (fun row => row.map (fun s => (s - gridMin g) * 255 / (gridMax g - gridMin g)))
    else
      g.map (fun row => row.map truncU8)

/-! ## Python exceptions relevant to the program -/

/-- Exception values the program raises or meets.  `valueError` is raised in
the repository itself (missing `pixel_array`, line 21); `runtimeError` is
the wrapper of line 52; `invalidDicomError` is pydicom's
`errors.InvalidDicomError`; `osError` stands for any other OS-level or
collaborator exception (e.g. `IsADirectoryError` from `open`, or a failure
inside the png writer). -/
inductive PyError where
  | fileNotFoundError
  | fileExistsError
  | invalidDicomError
  | valueError (msg : String)
  | runtimeError (msg : String)
  | osError
deriving DecidableEq

/-- Message of the `ValueError` raised at dicom.py line 21. -/
def noPixelMsg : String := "DICOM file does not contain image data"

/-- Message head of the `RuntimeError` wrapper at dicom.py line 52. -/
def wrapHead : String := "Error converting DICOM to PNG: "

/-- Python `str(e)` for the exceptions above.  The texts of the external
exceptions are collaborator-defined and opaque; fixed stand-ins are used,
and no theorem depends on them. -/
def pyStr : PyError → String
  | .fileNotFoundError => "file does not exist"
  | .fileExistsError => "file already exists"
  | .invalidDicomError => "Invalid DICOM input"
  | .valueError m => m
  | .runtimeError m => m
  | .osError => "OS-level error"

/-! ## mri_to_png (dicom.py lines 9-52) -/

/-- Behaviour of the external decode / encode collaborators on one input,
abstracting the outcomes the `try` block of `mri_to_png` can meet:
`pydicom.dcmread` raises `InvalidDicomError`; it raises some other
exception; the decoded data set has no `pixel_array`; or decoding yields a
grid of some dtype, after which the png encoder either succeeds or
raises. -/
inductive MriStep where
  | decodeInvalid
  | decodeOther
  | noPixel
  | decoded (dt : DType) (g : List (List Int)) (encodeOk : Bool)
deriving DecidableEq

/-- Body of the `try` block of `mri_to_png` (lines 16-49): the exception it
raises, or the normalized grid it hands to the png writer. -/
def mriTryBody : MriStep → Except PyError (List (List Int))
  | .decodeInvalid => .error .invalidDicomError
  | .decodeOther => .error .osError
  | .noPixel => .error (.valueError noPixelMsg)
  | .decoded dt g encodeOk =>
      if encodeOk then .ok (mriNormalize dt g) else .error .osError

/-- Function `mri_to_png` (lines 9-52): the `except Exception` clause at
line 51 catches every exception of the body and re-raises
`RuntimeError(f"Error converting DICOM to PNG: {str(e)}")`.  In the source
the successful branch writes the png inside this function; the model
returns the normalized grid and `convert_file` performs the write. -/
def mri_to_png (b : MriStep) : Except PyError (List (List Int)) :=
  match mriTryBody b with
  | .ok g => .ok g
  | .error e => .error (.runtimeError (wrapHead ++ pyStr e))

/-! ## Filesystem model -/

/-- A filesystem path, as a list of components (already absolute:
`os.path.abspath` is the identity of the model). -/
abbrev FPath := List String

/-- File table lookup: content of the file at a path, if one exists. -/
def findC : List (FPath × List Int) → FPath → Option (List Int)
  | [], _ => none
  | (q, c) :: rest, p => if q = p then some c else findC rest p

/-- Membership of a path in a directory list. -/
def memP : List FPath → FPath → Bool
  | [], _ => false
  | q :: rest, p => if q = p then true else memP rest p

/-- Filesystem state: regular files with their bytes, and directories. -/
structure FS where
  files : List (FPath × List Int)
  dirs : List FPath
deriving DecidableEq

/-- Does a regular file exist at `p` (what `open(p, 'rb')` requires)? -/
def FS.isFile (fs : FS) (p : FPath) : Bool := (findC fs.files p).isSome

/-- Python `os.path.exists`: true for files and for directories. -/
def FS.pathExists (fs : FS) (p : FPath) : Bool :=
  fs.isFile p || memP fs.dirs p

/-- Every non-empty prefix of a path: the ancestor chain `os.makedirs`
creates (the deepest directory itself included). -/
def ancestorChain : FPath → List FPath
  | [] => []
  | a :: as => [a] :: (ancestorChain as).map (fun q => a :: q)

/-- Python `os.makedirs(d, exist_ok=True)`: create every missing directory
on the chain leading to `d`. -/
def FS.makedirs (fs : FS) (d : FPath) : FS :=
  { fs with dirs := fs.dirs ++ (ancestorChain d).filter (fun q => !(memP fs.dirs q)) }

/-- Create (or truncate) the regular file at `p` with content `c`, as
`open(p, 'wb')` followed by writing `c` does. -/
def FS.writeFile (fs : FS) (p : FPath) (c : List Int) : FS :=
  { fs with files := (p, c) :: (fs.files.filter (fun e => decide (e.1 ≠ p))) }

/-- Python `os.remove p`. -/
def FS.removeFile (fs : FS) (p : FPath) : FS :=
  { fs with files := fs.files.filter (fun e => decide (e.1 ≠ p)) }

/-- Python `os.path.dirname` on a component path. -/
def dirname (p : FPath) : FPath := p.dropLast

/-- Modelled from the spec: the external raster-encoding collaborator
(`png.Writer.write`, section 6 of the spec) serializes the normalized grid
into PNG bytes; the byte layout is opaque to this program, so the flattened
sample list stands in for it. -/
def pngSerialize (g : List (List Int)) : List Int := flatSamples g

/-! ## convert_file (dicom.py lines 54-79) -/

/-- Function `convert_file`.  Order as in the source: source-existence
check (line 61, `os.path.exists`), destination-absence check (line 65),
`os.makedirs(os.path.dirname(...))` (line 69), then the `try` block that
opens the source, opens (creates) the destination, and runs `mri_to_png`;
the `except` clause (lines 75-79) removes the destination file if it
exists and re-raises.  Opening the source fails (e.g. `IsADirectoryError`)
when the path exists but is not a regular file; at that point the
destination has not been created, so the cleanup test finds nothing. -/
def convert_file (fs : FS) (src dst : FPath) (b : MriStep) :
    Except PyError Unit × FS :=
  if !(fs.pathExists src) then
    (.error .fileNotFoundError, fs)
  else if fs.pathExists dst then
    (.error .fileExistsError, fs)
  else
    let fs1 := fs.makedirs (dirname dst)
    if !(fs1.isFile src) then
      (.error .osError, fs1)
    else
      let fs2 := fs1.writeFile dst []
      match mri_to_png b with
      | .ok g => (.ok (), fs2.writeFile dst (pngSerialize g))
      | .error e =>
          (.error e, if fs2.pathExists dst then fs2.removeFile dst else fs2)

/-! ## convert_folder (dicom.py lines 81-124) -/

/-- ASCII lowercasing of one character code (Python `str.lower` on the
ASCII names involved in the extension test). -/
def lowerCode (n : Nat) : Nat := if 65 ≤ n ∧ n ≤ 90 then n + 32 else n

/-- Character codes of a string, lowercased. -/
def codesOf (s : String) : List Nat := s.toList.map (fun c => lowerCode c.toNat)

/-- Character codes of the literal `".dcm"`. -/
def dcmCodes : List Nat := [46, 100, 99, 109]

/-- Character codes of the literal `".dicom"`. -/
def dicomCodes : List Nat := [46, 100, 105, 99, 111, 109]

/-- Line 100: `file.lower().endswith(('.dcm', '.dicom'))`. -/
def isDicomExt (name : String) : Bool :=
  dcmCodes.isSuffixOf (codesOf name) || dicomCodes.isSuffixOf (codesOf name)

/-- Root part of `os.path.splitext` (line 110): split at the last dot,
unless every character before that dot is itself a dot (so `".bashrc"` and
`".."` keep their name whole). -/
def splitextStem (s : String) : String :=
  let cs := s.toList
  let dots := (List.range cs.length).filter (fun i => decide (cs.getD i ' ' = '.'))
  match dots.getLast? with
  | none => s
  | some i =>
      if (cs.take i).all (fun c => decide (c = '.')) then s
      else String.mk (cs.take i)

/-- The literal `".png"` appended at line 110. -/
def pngExt : String := ".png"

/-- Behaviour of `pydicom.misc.is_dicom` (the content probe of line 101)
on one file: it returns true, returns false, raises `InvalidDicomError`,
or raises some other exception. -/
inductive ProbeRes where
  | yes
  | no
  | raisesInvalid
  | raisesOther
deriving DecidableEq

/-- One regular file met by the `os.walk` traversal (the `isfile` guard of
line 97 already holds), described by its path relative to the source root
(last component = filename), the probe's behaviour on it, and the
decode/encode behaviour were a conversion attempted. -/
structure FileDesc where
  rel : FPath
  probe : ProbeRes
  step : MriStep
deriving DecidableEq

def fileName (fd : FileDesc) : String := fd.rel.getLastD (String.mk [])

/-- Line 94: `os.path.join(root, file)`. -/
def srcPath (mriFolder : FPath) (fd : FileDesc) : FPath := mriFolder ++ fd.rel

/-- Lines 105-111: mirror the relative directory under the png root and
replace the extension by `.png`. -/
def dstPath (pngFolder : FPath) (fd : FileDesc) : FPath :=
  pngFolder ++ dirname fd.rel ++ [splitextStem (fileName fd) ++ pngExt]

/-- Lines 107-122 for a file that passed the DICOM-ness test:
`os.makedirs(png_folder_path, exist_ok=True)`, then `convert_file`; a
normal return increments the success counter (line 116); a raised
`InvalidDicomError` is skipped without counting (line 118); any other
exception increments the failure counter (line 122). -/
def attemptConvert (fs : FS) (src dst : FPath) (b : MriStep) (s f : Nat) :
    Nat × Nat × FS :=
  let fs1 := fs.makedirs (dirname dst)
  match convert_file fs1 src dst b with
  | (.ok _, fs2) => (s + 1, f, fs2)
  | (.error e, fs2) =>
      if e = PyError.invalidDicomError then (s, f, fs2) else (s, f + 1, fs2)

/-- Lines 98-122: processing of one visited file, threading the counters
and the filesystem.  The extension test short-circuits the probe (line
100's `or`).  A probe that raises `InvalidDicomError` hits the `except`
clause of line 118 (skip, uncounfed); one that raises anything else hits
line 120 (counted as failure).  The log lines themselves (and the
`NameError` Python would raise inside the FAIL f-string of line 121 when
no earlier iteration bound `png_file_path`) are I/O outside the model,
which tracks counters and filesystem state only. -/
def folderStep (mriFolder pngFolder : FPath) (acc : Nat × Nat × FS)
    (fd : FileDesc) : Nat × Nat × FS :=
  match acc with
  | (s, f, fs) =>
    if isDicomExt (fileName fd) then
      attemptConvert fs (srcPath mriFolder fd) (dstPath pngFolder fd) fd.step s f
    else
      match fd.probe with
      | .yes => attemptConvert fs (srcPath mriFolder fd) (dstPath pngFolder fd) fd.step s f
      | .no => (s, f, fs)
      | .raisesInvalid => (s, f, fs)
      | .raisesOther => (s, f + 1, fs)

/-- Function `convert_folder` (lines 81-124): create the destination root
(line 85), fold the per-file step over every file of the walk with
counters starting at zero (lines 88-89), and report the final totals.  The
`files` list abstracts the `os.walk` enumeration; its order is the
traversal order. -/
def convert_folder (fs : FS) (mriFolder pngFolder : FPath)
    (files : List FileDesc) : Nat × Nat × FS :=
  files.foldl (folderStep mriFolder pngFolder) (0, 0, fs.makedirs pngFolder)

/-- Outcome classifier used when refuting claim C3: does a `mri_to_png`
result fail with the generic `RuntimeError` wrapper? -/
def failsRuntime : Except PyError (List (List Int)) → Bool
  | .error (.runtimeError _) => true
  | _ => false

instance {α β : Type} [DecidableEq α] [DecidableEq β] :
    DecidableEq (Except α β) := fun a b =>
  match a, b with
  | .ok x, .ok y =>
      if h : x = y then isTrue (by rw [h])
      else isFalse (fun hh => h (by injection hh))
  | .ok _, .error _ => isFalse (fun h => Except.noConfusion h)
  | .error _, .ok _ => isFalse (fun h => Except.noConfusion h)
  | .error x, .error y =>
      if h : x = y then isTrue (by rw [h])
      else isFalse (fun hh => h (by injection hh))

/-! ## Helper lemmas: list extrema -/

theorem le_foldl_max (b : Int) (l : List Int) : b ≤ l.foldl max b := by
  induction l generalizing b with
  | nil => exact le_refl b
  | cons a as ih => exact le_trans (le_max_left b a) (ih (max b a))

theorem mem_le_foldl_max {x : Int} {l : List Int} (b : Int) (hx : x ∈ l) :
    x ≤ l.foldl max b := by
  induction l generalizing b with
  | nil => cases hx
  | cons a as ih =>
      rcases List.mem_cons.mp hx with h | h
      · subst h
        exact le_trans (le_max_right b x) (le_foldl_max (max b x) as)
      · exact ih (max b a) h

theorem le_listMax {x : Int} {l : List Int} (hx : x ∈ l) : x ≤ listMax l := by
  cases l with
  | nil => cases hx
  | cons a as =>
      rcases List.mem_cons.mp hx with h | h
      · subst h
        exact le_foldl_max x as
      · exact mem_le_foldl_max a h

theorem foldl_min_le (b : Int) (l : List Int) : l.foldl min b ≤ b := by
  induction l generalizing b with
  | nil => exact le_refl b
  | cons a as ih => exact le_trans (ih (min b a)) (min_le_left b a)

theorem foldl_min_le_mem {x : Int} {l : List Int} (b : Int) (hx : x ∈ l) :
    l.foldl min b ≤ x := by
  induction l generalizing b with
  | nil => cases hx
  | cons a as ih =>
      rcases List.mem_cons.mp hx with h | h
      · subst h
        exact le_trans (foldl_min_le (min b x) as) (min_le_right b x)
      · exact ih (min b a) h

theorem listMin_le {x : Int} {l : List Int} (hx : x ∈ l) : listMin l ≤ x := by
  cases l with
  | nil => cases hx
  | cons a as =>
      rcases List.mem_cons.mp hx with h | h
      · subst h
        exact foldl_min_le x as
      · exact foldl_min_le_mem a h

theorem foldl_max_const {l : List Int} {c : Int} (h : ∀ x ∈ l, x = c) :
    l.foldl max c = c := by
  induction l with
  | nil => rfl
  | cons a as ih =>
      have ha : a = c := h a (List.mem_cons_self a as)
      have has : ∀ x ∈ as, x = c := fun x hx => h x (List.mem_cons_of_mem a hx)
      simp only [List.foldl_cons, ha, max_self]
      exact ih has

theorem foldl_min_const {l : List Int} {c : Int} (h : ∀ x ∈ l, x = c) :
    l.foldl min c = c := by
  induction l with
  | nil => rfl
  | cons a as ih =>
      have ha : a = c := h a (List.mem_cons_self a as)
      have has : ∀ x ∈ as, x = c := fun x hx => h x (List.mem_cons_of_mem a hx)
      simp only [List.foldl_cons, ha, min_self]
      exact ih has

theorem listMax_const {l : List Int} {c : Int} (hne : l ≠ [])
    (h : ∀ x ∈ l, x = c) : listMax l = c := by
  cases l with
  | nil => exact absurd rfl hne
  | cons a as =>
      have ha : a = c := h a (List.mem_cons_self a as)
      have has : ∀ x ∈ as, x = c := fun x hx => h x (List.mem_cons_of_mem a hx)
      show as.foldl max a = c
      rw [ha]
      exact foldl_max_const has

theorem listMin_const {l : List Int} {c : Int} (hne : l ≠ [])
    (h : ∀ x ∈ l, x = c) : listMin l = c := by
  cases l with
  | nil => exact absurd rfl hne
  | cons a as =>
      have ha : a = c := h a (List.mem_cons_self a as)
      have has : ∀ x ∈ as, x = c := fun x hx => h x (List.mem_cons_of_mem a hx)
      show as.foldl min a = c
      rw [ha]
      exact foldl_min_const has

/-! ## Helper lemmas: flattened grids -/

theorem mem_flatSamples {s : Int} {row : List Int} {g : List (List Int)}
    (hs : s ∈ row) (hr : row ∈ g) : s ∈ flatSamples g := by
  induction g with
  | nil => cases hr
  | cons r rs ih =>
      rcases List.mem_cons.mp hr with h | h
      · subst h
        exact List.mem_append_left _ hs
      · exact List.mem_append_right _ (ih h)

theorem flatSamples_map_map (f : Int → Int) (g : List (List Int)) :
    flatSamples (g.map (fun row => row.map f)) = (flatSamples g).map f := by
  induction g with
  | nil => rfl
  | cons r rs ih =>
      show (r.map f) ++ flatSamples (rs.map (fun row => row.map f))
          = (r ++ flatSamples rs).map f
      rw [ih, List.map_append]

/-! ## Helper lemmas: rational floor vs integer division -/

theorem floor_div_mul_255 (s m : Int) (hm : 0 < m) :
    ⌊((s : ℚ) / (m : ℚ)) * 255⌋ = s * 255 / m := by
  have hm0 : ((m.toNat : ℕ) : ℚ) = (m : ℚ) := by
    exact_mod_cast congrArg (fun z : ℤ => (z : ℚ)) (Int.toNat_of_nonneg hm.le)
  have h1 : ((s : ℚ) / (m : ℚ)) * 255 = ((s * 255 : ℤ) : ℚ) / ((m.toNat : ℕ) : ℚ) := by
    rw [hm0]
    push_cast
    ring
  rw [h1, Rat.floor_intCast_div_natCast, Int.toNat_of_nonneg hm.le]

/-! ## Helper lemmas: filesystem primitives -/

theorem findC_filter_self (l : List (FPath × List Int)) (p : FPath) :
    findC (l.filter (fun e => decide (e.1 ≠ p))) p = none := by
  induction l with
  | nil => rfl
  | cons e rest ih =>
      simp only [ne_eq, decide_not] at ih ⊢
      by_cases h : e.1 = p
      · simp [List.filter_cons, h, ih]
      · simp [List.filter_cons, h, findC, ih]

theorem findC_filter_ne (l : List (FPath × List Int)) {p q : FPath}
    (h : q ≠ p) :
    findC (l.filter (fun e => decide (e.1 ≠ p))) q = findC l q := by
  induction l with
  | nil => rfl
  | cons e rest ih =>
      simp only [ne_eq, decide_not] at ih ⊢
      by_cases he : e.1 = p
      · have hpq : ¬ p = q := fun hh => h hh.symm
        simp [List.filter_cons, he, findC, hpq, ih]
      · by_cases hq : e.1 = q
        · simp [List.filter_cons, he, findC, hq, h]
        · simp [List.filter_cons, he, findC, hq, ih]

theorem memP_iff_mem {l : List FPath} {p : FPath} : memP l p = true ↔ p ∈ l := by
  induction l with
  | nil => simp [memP]
  | cons q rest ih =>
      by_cases h : q = p
      · subst h
        simp [memP]
      · simp [memP, h, ih]
        intro hh
        exact absurd hh.symm h

theorem memP_append (l1 l2 : List FPath) (p : FPath) :
    memP (l1 ++ l2) p = (memP l1 p || memP l2 p) := by
  induction l1 with
  | nil => rfl
  | cons q rest ih =>
      by_cases h : q = p
      · simp [memP, h]
      · simp [memP, h, ih]

theorem mem_ancestorChain_length {p : FPath} {q : FPath}
    (h : q ∈ ancestorChain p) : q.length ≤ p.length := by
  induction p generalizing q with
  | nil => cases h
  | cons a as ih =>
      rcases List.mem_cons.mp h with h1 | h1
      · subst h1
        simp
      · rcases List.mem_map.mp h1 with ⟨q0, hq0, hq⟩
        subst hq
        simpa using ih hq0

/-! ## Helper lemmas: shape of convert_file results -/

theorem isFile_makedirs (fs : FS) (d p : FPath) :
    (fs.makedirs d).isFile p = fs.isFile p := rfl

theorem pathExists_false_file {fs : FS} {p : FPath}
    (h : fs.pathExists p = false) : fs.isFile p = false := by
  have := h
  simp [FS.pathExists] at this
  exact this.1

theorem pathExists_false_dir {fs : FS} {p : FPath}
    (h : fs.pathExists p = false) : memP fs.dirs p = false := by
  have := h
  simp [FS.pathExists] at this
  exact this.2

theorem pathExists_of_isFile {fs : FS} {p : FPath}
    (h : fs.isFile p = true) : fs.pathExists p = true := by
  simp [FS.pathExists, h]

theorem memP_makedirs_dirname {fs : FS} {dst : FPath}
    (h : memP fs.dirs dst = false) :
    memP (fs.makedirs (dirname dst)).dirs dst = false := by
  have hch : memP ((ancestorChain (dirname dst)).filter
      (fun q => !(memP fs.dirs q))) dst = false := by
    cases hm : memP ((ancestorChain (dirname dst)).filter
        (fun q => !(memP fs.dirs q))) dst with
    | false => rfl
    | true =>
        exfalso
        have hmem := List.mem_of_mem_filter (memP_iff_mem.mp hm)
        have hlen := mem_ancestorChain_length hmem
        cases dst with
        | nil => cases hmem
        | cons a as =>
            rw [dirname, List.length_dropLast] at hlen
            simp only [List.length_cons] at hlen
            omega
  show memP (fs.dirs ++ _) dst = false
  rw [memP_append, h, hch]
  rfl

theorem memP_makedirs_of_mem {fs : FS} {d q : FPath}
    (h : q ∈ ancestorChain d) :
    memP (fs.makedirs d).dirs q = true := by
  show memP (fs.dirs ++ _) q = true
  rw [memP_append]
  cases hq : memP fs.dirs q with
  | true => rfl
  | false =>
      have : q ∈ (ancestorChain d).filter (fun q => !(memP fs.dirs q)) := by
        rw [List.mem_filter]
        exact ⟨h, by rw [hq]; rfl⟩
      rw [memP_iff_mem.mpr this]
      rfl

theorem convert_file_notFound {fs : FS} {src dst : FPath} {b : MriStep}
    (h : fs.pathExists src = false) :
    convert_file fs src dst b = (.error .fileNotFoundError, fs) := by
  simp [convert_file, h]

theorem convert_file_alreadyExists {fs : FS} {src dst : FPath} {b : MriStep}
    (h1 : fs.pathExists src = true) (h2 : fs.pathExists dst = true) :
    convert_file fs src dst b = (.error .fileExistsError, fs) := by
  simp [convert_file, h1, h2]

theorem convert_file_srcNotFile {fs : FS} {src dst : FPath} {b : MriStep}
    (h1 : fs.pathExists src = true) (h2 : fs.pathExists dst = false)
    (h3 : fs.isFile src = false) :
    convert_file fs src dst b = (.error .osError, fs.makedirs (dirname dst)) := by
  simp [convert_file, h1, h2, isFile_makedirs, h3]

theorem convert_file_ok {fs : FS} {src dst : FPath} {b : MriStep}
    {g : List (List Int)}
    (h1 : fs.isFile src = true) (h2 : fs.pathExists dst = false)
    (hm : mri_to_png b = .ok g) :
    convert_file fs src dst b
      = (.ok (), (((fs.makedirs (dirname dst)).writeFile dst ([] : List Int)).writeFile
          dst (pngSerialize g))) := by
  have h1x : fs.pathExists src = true := pathExists_of_isFile h1
  simp [convert_file, h1x, h2, isFile_makedirs, h1, hm]

theorem convert_file_err {fs : FS} {src dst : FPath} {b : MriStep}
    {e : PyError}
    (h1 : fs.isFile src = true) (h2 : fs.pathExists dst = false)
    (hm : mri_to_png b = .error e) :
    convert_file fs src dst b
      = (.error e,
         (((fs.makedirs (dirname dst)).writeFile dst ([] : List Int)).removeFile dst)) := by
  have h1x : fs.pathExists src = true := pathExists_of_isFile h1
  have hdst : ((fs.makedirs (dirname dst)).writeFile dst ([] : List Int)).pathExists dst
      = true := by
    simp [FS.pathExists, FS.isFile, FS.writeFile, findC]
  simp [convert_file, h1x, h2, isFile_makedirs, h1, hm, hdst]

theorem mri_to_png_runtime (b : MriStep) :
    (∃ g, mri_to_png b = .ok g) ∨ (∃ m, mri_to_png b = .error (.runtimeError m)) := by
  cases b with
  | decodeInvalid => exact Or.inr ⟨_, rfl⟩
  | decodeOther => exact Or.inr ⟨_, rfl⟩
  | noPixel => exact Or.inr ⟨_, rfl⟩
  | decoded dt g encodeOk =>
      cases encodeOk with
      | true => exact Or.inl ⟨_, rfl⟩
      | false => exact Or.inr ⟨_, rfl⟩

theorem convert_file_not_invalid {fs : FS} {src dst : FPath} {b : MriStep}
    {err : PyError}
    (he : (convert_file fs src dst b).1 = .error err) :
    err ≠ .invalidDicomError := by
  cases hsrc : fs.pathExists src with
  | false =>
      rw [convert_file_notFound hsrc] at he
      injection he with he
      rw [← he]
      intro hh
      cases hh
  | true =>
      cases hdst : fs.pathExists dst with
      | true =>
          rw [convert_file_alreadyExists hsrc hdst] at he
          injection he with he
          rw [← he]
          intro hh
          cases hh
      | false =>
          cases hfile : fs.isFile src with
          | false =>
              rw [convert_file_srcNotFile hsrc hdst hfile] at he
              injection he with he
              rw [← he]
              intro hh
              cases hh
          | true =>
              rcases mri_to_png_runtime b with ⟨g, hg⟩ | ⟨m, hmm⟩
              · rw [convert_file_ok hfile hdst hg] at he
                cases he
              · rw [convert_file_err hfile hdst hmm] at he
                injection he with he
                rw [← he]
                intro hh
                cases hh

/-! ## Helper lemmas: indexed access through map, and folder steps -/

theorem getD_map_of_lt {α β : Type} (f : α → β) (l : List α) {i : Nat}
    (hi : i < l.length) (d1 : α) (d2 : β) :
    (l.map f).getD i d2 = f (l.getD i d1) := by
  induction l generalizing i with
  | nil => cases hi
  | cons a as ih =>
      cases i with
      | zero => rfl
      | succ j =>
          have hj : j < as.length := Nat.lt_of_succ_lt_succ hi
          exact ih hj

theorem attemptConvert_err {fs : FS} {src dst : FPath} {b : MriStep}
    {s f : Nat} {err : PyError}
    (he : (convert_file (fs.makedirs (dirname dst)) src dst b).1 = .error err) :
    attemptConvert fs src dst b s f
      = (s, f + 1, (convert_file (fs.makedirs (dirname dst)) src dst b).2) := by
  have hne := convert_file_not_invalid he
  rcases hcf : convert_file (fs.makedirs (dirname dst)) src dst b with ⟨r, fs2⟩
  rw [hcf] at he
  simp only at he
  subst he
  simp [attemptConvert, hcf, hne]

theorem folderStep_attempt {mriFolder pngFolder : FPath} {s f : Nat} {fs : FS}
    {fd : FileDesc}
    (hatt : isDicomExt (fileName fd) = true ∨ fd.probe = ProbeRes.yes) :
    folderStep mriFolder pngFolder (s, f, fs) fd
      = attemptConvert fs (srcPath mriFolder fd) (dstPath pngFolder fd) fd.step s f := by
  rcases hatt with h | h
  · simp [folderStep, h]
  · cases hext : isDicomExt (fileName fd) with
    | true => simp [folderStep, hext]
    | false => simp [folderStep, hext, h]

/-! ## Claim theorems -/

/-- C1: for every non-empty 2D grid of 16-bit unsigned samples whose
maximum `max` is positive, the uint16 branch of the normalizer outputs a
grid of the same dimensions with `output[i][j] = floor(sample[i][j] / max
* 255)` for every cell; consequently every output sample lies in
`[0, 255]` and every cell holding the grid maximum maps to exactly 255. -/
theorem c1_uint16_scale (g : List (List Int)) (hne : flatSamples g ≠ [])
    (hb : ∀ s ∈ flatSamples g, 0 ≤ s ∧ s < 65536)
    (hmax : 0 < gridMax g) :
    mriNormalize DType.uint16 g
        = g.map (fun row => row.map (fun s : Int => ⌊((s : ℚ) / (gridMax g : ℚ)) * 255⌋)) ∧
    (mriNormalize DType.uint16 g).map List.length = g.map List.length ∧
    (∀ t ∈ flatSamples (mriNormalize DType.uint16 g), 0 ≤ t ∧ t ≤ 255) ∧
    (∀ i j : Nat, i < g.length → j < (g.getD i []).length →
      (g.getD i []).getD j 0 = gridMax g →
      ((mriNormalize DType.uint16 g).getD i []).getD j 0 = 255) := by
  have hnorm : mriNormalize DType.uint16 g
      = g.map (fun row => row.map (fun s => s * 255 / gridMax g)) := by
    simp [mriNormalize, hmax]
  have hmaxdiv : gridMax g * 255 / gridMax g = 255 := by
    rw [mul_comm]
    exact Int.mul_ediv_cancel 255 (ne_of_gt hmax)
  refine ⟨?_, ?_, ?_, ?_⟩
  · rw [hnorm]
    refine List.map_congr_left fun row _ => ?_
    refine List.map_congr_left fun s _ => ?_
    exact (floor_div_mul_255 s (gridMax g) hmax).symm
  · rw [hnorm]
    simp
  · intro t ht
    rw [hnorm, flatSamples_map_map] at ht
    rcases List.mem_map.mp ht with ⟨s, hs, rfl⟩
    constructor
    · exact Int.ediv_nonneg (mul_nonneg (hb s hs).1 (by norm_num)) hmax.le
    · have hsm : s ≤ gridMax g := le_listMax hs
      calc s * 255 / gridMax g
          ≤ gridMax g * 255 / gridMax g :=
            Int.ediv_le_ediv hmax (mul_le_mul_of_nonneg_right hsm (by norm_num))
        _ = 255 := hmaxdiv
  · intro i j hi hj hcell
    rw [hnorm, getD_map_of_lt _ g hi ([] : List Int),
      getD_map_of_lt _ (g.getD i []) hj (0 : Int), hcell, hmaxdiv]

/-- Witness for C1 at a concrete 2-by-3 grid with maximum 4. -/
theorem c1_uint16_scale_witness :
    mriNormalize DType.uint16 [[0, 2, 4], [1, 3, 4]]
      = [[0, 2, 4], [1, 3, 4]].map (fun row => row.map
          (fun s : Int => ⌊((s : ℚ) / (gridMax [[0, 2, 4], [1, 3, 4]] : ℚ)) * 255⌋)) :=
  (c1_uint16_scale [[0, 2, 4], [1, 3, 4]] (by decide) (by decide) (by decide)).1

/-- C7: for a non-empty constant grid of a dtype that is neither uint8 nor
uint16 (so `max == min`), the normalizer takes the direct-truncation
branch instead of dividing: it outputs the constant truncated modulo 2^8,
with the dimensions preserved, so the division branch is never taken on a
zero denominator and a value is always produced. -/
theorem c7_other_constant (g : List (List Int)) (c : Int)
    (hne : flatSamples g ≠ []) (hconst : ∀ s ∈ flatSamples g, s = c) :
    gridMin g = gridMax g ∧
    mriNormalize DType.other g = g.map (fun row => row.map (fun _ => c % 256)) ∧
    (mriNormalize DType.other g).map List.length = g.map List.length := by
  have hmaxc : gridMax g = c := listMax_const hne hconst
  have hminc : gridMin g = c := listMin_const hne hconst
  have hlt : ¬ (gridMin g < gridMax g) := by
    rw [hminc, hmaxc]
    exact lt_irrefl c
  have hnorm : mriNormalize DType.other g = g.map (fun row => row.map truncU8) := by
    simp [mriNormalize, hlt]
  refine ⟨hminc.trans hmaxc.symm, ?_, ?_⟩
  · rw [hnorm]
    refine List.map_congr_left fun row hrow => ?_
    refine List.map_congr_left fun s hs => ?_
    rw [truncU8, hconst s (mem_flatSamples hs hrow)]
  · rw [hnorm]
    simp

/-- Witness for C7 at the constant grid of 42s. -/
theorem c7_other_constant_witness :
    mriNormalize DType.other [[42, 42], [42]]
      = [[42, 42], [42]].map (fun row => row.map (fun _ => (42 : Int) % 256)) :=
  (c7_other_constant [[42, 42], [42]] 42 (by decide) (by decide)).2.1

/-- C8: on a grid whose element type is exactly 8-bit unsigned, the
normalizer is the identity: the uint8 branch passes the input through
unchanged. -/
theorem c8_uint8_identity (g : List (List Int)) :
    mriNormalize DType.uint8 g = g := rfl

/-- C9: in both branches where the normalizer truncates directly to 8 bits
(the 16-bit branch when the maximum is not positive, and the other-dtype
branch when the grid is constant), truncation is reduction modulo 256, not
saturation: a constant grid of -1 normalizes to all 255, and a constant
grid of 300 normalizes to all 44. -/
theorem c9_trunc_mod (g : List (List Int)) (hne : flatSamples g ≠ []) :
    (gridMax g ≤ 0 →
      mriNormalize DType.uint16 g = g.map (fun row => row.map (fun s => s % 256))) ∧
    (gridMin g = gridMax g →
      mriNormalize DType.other g = g.map (fun row => row.map (fun s => s % 256))) ∧
    ((∀ s ∈ flatSamples g, s = -1) →
      mriNormalize DType.other g = g.map (fun row => row.map (fun _ => (255 : Int)))) ∧
    ((∀ s ∈ flatSamples g, s = 300) →
      mriNormalize DType.other g = g.map (fun row => row.map (fun _ => (44 : Int)))) := by
  refine ⟨?_, ?_, ?_, ?_⟩
  · intro h
    have hfls : ¬ (0 < gridMax g) := not_lt.mpr h
    simp [mriNormalize, hfls, truncU8]
  · intro h
    have hlt : ¬ (gridMin g < gridMax g) := by
      rw [h]
      exact lt_irrefl _
    simp [mriNormalize, hlt, truncU8]
  · intro hc
    have hmaxc : gridMax g = -1 := listMax_const hne hc
    have hminc : gridMin g = -1 := listMin_const hne hc
    have hlt : ¬ (gridMin g < gridMax g) := by
      rw [hminc, hmaxc]
      exact lt_irrefl _
    have hnorm : mriNormalize DType.other g = g.map (fun row => row.map truncU8) := by
      simp [mriNormalize, hlt]
    rw [hnorm]
    refine List.map_congr_left fun row hrow => ?_
    refine List.map_congr_left fun s hs => ?_
    rw [truncU8, hc s (mem_flatSamples hs hrow)]
    decide
  · intro hc
    have hmaxc : gridMax g = 300 := listMax_const hne hc
    have hminc : gridMin g = 300 := listMin_const hne hc
    have hlt : ¬ (gridMin g < gridMax g) := by
      rw [hminc, hmaxc]
      exact lt_irrefl _
    have hnorm : mriNormalize DType.other g = g.map (fun row => row.map truncU8) := by
      simp [mriNormalize, hlt]
    rw [hnorm]
    refine List.map_congr_left fun row hrow => ?_
    refine List.map_congr_left fun s hs => ?_
    rw [truncU8, hc s (mem_flatSamples hs hrow)]
    decide

/-- Witness for C9: the constant grids of -1 and of 300. -/
theorem c9_trunc_mod_witness :
    mriNormalize DType.other [[-1, -1]]
      = [[-1, -1]].map (fun row => row.map (fun _ => (255 : Int))) ∧
    mriNormalize DType.other [[300]]
      = [[300]].map (fun row => row.map (fun _ => (44 : Int))) :=
  ⟨(c9_trunc_mod [[-1, -1]] (by decide)).2.2.1 (by decide),
   (c9_trunc_mod [[300]] (by decide)).2.2.2 (by decide)⟩

/-- C2: when both precondition checks pass and any later step of
single-file conversion fails, no file (and no directory) exists at the
destination path after the call: the partially written destination is
deleted before the error propagates, and on failures occurring before the
destination is created there is nothing at the path either. -/
theorem c2_cleanup (fs : FS) (src dst : FPath) (b : MriStep) (err : PyError)
    (h1 : fs.pathExists src = true) (h2 : fs.pathExists dst = false)
    (he : (convert_file fs src dst b).1 = .error err) :
    (convert_file fs src dst b).2.pathExists dst = false := by
  cases hfile : fs.isFile src with
  | false =>
      rw [convert_file_srcNotFile h1 h2 hfile]
      show (fs.makedirs (dirname dst)).pathExists dst = false
      have hf : (fs.makedirs (dirname dst)).isFile dst = false := by
        rw [isFile_makedirs]
        exact pathExists_false_file h2
      have hd : memP (fs.makedirs (dirname dst)).dirs dst = false :=
        memP_makedirs_dirname (pathExists_false_dir h2)
      simp [FS.pathExists, hf, hd]
  | true =>
      rcases mri_to_png_runtime b with ⟨g, hg⟩ | ⟨m, hmm⟩
      · rw [convert_file_ok hfile h2 hg] at he
        exact Except.noConfusion he
      · rw [convert_file_err hfile h2 hmm]
        show ((((fs.makedirs (dirname dst)).writeFile dst ([] : List Int))).removeFile
            dst).pathExists dst = false
        have hf : ((((fs.makedirs (dirname dst)).writeFile dst
            ([] : List Int))).removeFile dst).isFile dst = false := by
          show (findC (((dst, ([] : List Int)) ::
              (fs.makedirs (dirname dst)).files.filter
                (fun e => decide (e.1 ≠ dst))).filter
              (fun e => decide (e.1 ≠ dst))) dst).isSome = false
          rw [findC_filter_self]
          rfl
        have hd : memP (((((fs.makedirs (dirname dst)).writeFile dst
            ([] : List Int))).removeFile dst)).dirs dst = false := by
          show memP (fs.makedirs (dirname dst)).dirs dst = false
          exact memP_makedirs_dirname (pathExists_false_dir h2)
        simp [FS.pathExists, hf, hd]

/-- Witness for C2: a missing-pixel-payload failure on a concrete
filesystem leaves nothing at the destination path. -/
theorem c2_cleanup_witness :
    (convert_file { files := [([r"in", r"a.dcm"], [9])], dirs := [[r"in"]] }
        [r"in", r"a.dcm"] [r"out", r"a.png"] MriStep.noPixel).2.pathExists
      [r"out", r"a.png"] = false :=
  c2_cleanup { files := [([r"in", r"a.dcm"], [9])], dirs := [[r"in"]] }
    [r"in", r"a.dcm"] [r"out", r"a.png"] MriStep.noPixel
    (.runtimeError (wrapHead ++ noPixelMsg)) (by decide) (by decide) rfl

/-- Counterexample to C3 as stated: the missing-pixel-payload failure is
not a distinguished error at all.  `mri_to_png` wraps it in exactly the
same generic `RuntimeError` constructor it uses for an unreadable
non-DICOM input and for any other decode/encode failure (line 51-52 of
dicom.py catches `Exception`, which includes the `ValueError` of line 21),
so a caller matching on the exception class cannot tell them apart - in
particular it is not pydicom's distinguished `InvalidDicomError`. -/
theorem c3_counterexample :
    failsRuntime (mri_to_png MriStep.noPixel) = true ∧
    failsRuntime (mri_to_png MriStep.decodeInvalid) = true ∧
    failsRuntime (mri_to_png MriStep.decodeOther) = true ∧
    mri_to_png MriStep.noPixel ≠ Except.error PyError.invalidDicomError := by
  refine ⟨rfl, rfl, rfl, ?_⟩
  intro h
  rw [show mri_to_png MriStep.noPixel
      = Except.error (PyError.runtimeError (wrapHead ++ noPixelMsg)) from rfl] at h
  injection h with h2
  exact PyError.noConfusion h2

/-- C3 as amended: an input whose decoded data set lacks an image-pixel
payload makes single-file conversion fail with the generic wrapper
`RuntimeError("Error converting DICOM to PNG: DICOM file does not contain
image data")` - the same exception class as every other decode/encode
failure, distinguishable only by its message text. -/
theorem c3_amended_wrap (fs : FS) (src dst : FPath)
    (h1 : fs.isFile src = true) (h2 : fs.pathExists dst = false) :
    (convert_file fs src dst MriStep.noPixel).1
      = .error (.runtimeError (wrapHead ++ noPixelMsg)) := by
  rw [convert_file_err h1 h2 (show mri_to_png MriStep.noPixel
      = Except.error (PyError.runtimeError (wrapHead ++ noPixelMsg)) from rfl)]

/-- Witness for the amended C3 on a concrete filesystem. -/
theorem c3_amended_wrap_witness :
    (convert_file { files := [([r"s.dcm"], [5])], dirs := [] }
        [r"s.dcm"] [r"o", r"s.png"] MriStep.noPixel).1
      = .error (.runtimeError (wrapHead ++ noPixelMsg)) :=
  c3_amended_wrap { files := [([r"s.dcm"], [5])], dirs := [] }
    [r"s.dcm"] [r"o", r"s.png"] (by decide) (by decide)

/-- Counterexample to C5 as stated: a source path that references an
existing directory does not reference an existing file, yet `convert_file`
does not fail with NotFound (line 61 tests `os.path.exists`, which is true
for directories); it proceeds, creates the destination parent directories,
and fails later when `open` refuses the directory. -/
theorem c5_counterexample :
    findC ({ files := [], dirs := [[r"srcdir"]] } : FS).files [r"srcdir"] = none ∧
    (convert_file { files := [], dirs := [[r"srcdir"]] }
        [r"srcdir"] [r"out", r"x.png"] MriStep.noPixel).1
      ≠ Except.error PyError.fileNotFoundError ∧
    (convert_file { files := [], dirs := [[r"srcdir"]] }
        [r"srcdir"] [r"out", r"x.png"] MriStep.noPixel).2.dirs
      ≠ ({ files := [], dirs := [[r"srcdir"]] } : FS).dirs := by
  refine ⟨rfl, ?_, ?_⟩
  · decide
  · decide

/-- C5 as amended: the two precondition checks run before any filesystem
mutation and test path existence (file or directory).  If the source path
does not exist at all, conversion fails with NotFound and the filesystem
is returned unchanged (nothing created); otherwise, if the destination
path exists (as file or directory), conversion fails with AlreadyExists
and the filesystem - in particular the pre-existing destination file's
bytes - is returned unchanged. -/
theorem c5_preconditions (fs : FS) (src dst : FPath) (b : MriStep) :
    (fs.pathExists src = false →
      convert_file fs src dst b = (.error .fileNotFoundError, fs)) ∧
    (fs.pathExists src = true → fs.pathExists dst = true →
      convert_file fs src dst b = (.error .fileExistsError, fs)) :=
  ⟨fun h => convert_file_notFound h,
   fun h1 h2 => convert_file_alreadyExists h1 h2⟩

/-- Witness for the amended C5: a missing source, and an occupied
destination, each on a concrete filesystem. -/
theorem c5_preconditions_witness :
    convert_file { files := [], dirs := [] } [r"s.dcm"] [r"o.png"]
        MriStep.noPixel
      = (.error .fileNotFoundError, { files := [], dirs := [] }) ∧
    convert_file { files := [([r"s.dcm"], [1]), ([r"o.png"], [2])], dirs := [] }
        [r"s.dcm"] [r"o.png"] MriStep.noPixel
      = (.error .fileExistsError,
         { files := [([r"s.dcm"], [1]), ([r"o.png"], [2])], dirs := [] }) :=
  ⟨(c5_preconditions { files := [], dirs := [] } [r"s.dcm"] [r"o.png"]
      MriStep.noPixel).1 (by decide),
   (c5_preconditions
      { files := [([r"s.dcm"], [1]), ([r"o.png"], [2])], dirs := [] }
      [r"s.dcm"] [r"o.png"] MriStep.noPixel).2 (by decide) (by decide)⟩

/-- C6: a visited file matching neither the case-insensitive
`.dcm`/`.dicom` extension test nor the content probe is silently skipped:
the `continue` of line 102 leaves both counters and the whole filesystem
(so in particular any would-be output file) untouched. -/
theorem c6_skip (mriFolder pngFolder : FPath) (s f : Nat) (fs : FS)
    (fd : FileDesc)
    (hext : isDicomExt (fileName fd) = false) (hprobe : fd.probe = ProbeRes.no) :
    folderStep mriFolder pngFolder (s, f, fs) fd = (s, f, fs) := by
  simp [folderStep, hext, hprobe]

/-- Witness for C6 on a concrete non-DICOM file. -/
theorem c6_skip_witness :
    folderStep [r"in"] [r"out"] (3, 1, { files := [], dirs := [] })
      { rel := [r"readme.txt"], probe := ProbeRes.no, step := MriStep.noPixel }
      = (3, 1, { files := [], dirs := [] }) :=
  c6_skip [r"in"] [r"out"] 3 1 { files := [], dirs := [] }
    { rel := [r"readme.txt"], probe := ProbeRes.no, step := MriStep.noPixel }
    (by decide) rfl

/-- C10: when the preconditions pass and the conversion then fails, the
cleanup removes only the destination file: the directory list after the
failed call is exactly the one `os.makedirs` produced (every ancestor of
the destination's parent is present, none is removed), and every file
other than the destination is untouched. -/
theorem c10_dirs_persist (fs : FS) (src dst : FPath) (b : MriStep)
    (err : PyError)
    (h1 : fs.pathExists src = true) (h2 : fs.pathExists dst = false)
    (he : (convert_file fs src dst b).1 = .error err) :
    (convert_file fs src dst b).2.dirs = (fs.makedirs (dirname dst)).dirs ∧
    (∀ q ∈ ancestorChain (dirname dst),
      memP (convert_file fs src dst b).2.dirs q = true) ∧
    (convert_file fs src dst b).2.isFile dst = false ∧
    (∀ p : FPath, p ≠ dst →
      findC (convert_file fs src dst b).2.files p = findC fs.files p) := by
  cases hfile : fs.isFile src with
  | false =>
      rw [convert_file_srcNotFile h1 h2 hfile]
      refine ⟨rfl, ?_, ?_, ?_⟩
      · intro q hq
        exact memP_makedirs_of_mem hq
      · rw [isFile_makedirs]
        exact pathExists_false_file h2
      · intro p _
        rfl
  | true =>
      rcases mri_to_png_runtime b with ⟨g, hg⟩ | ⟨m, hmm⟩
      · rw [convert_file_ok hfile h2 hg] at he
        exact Except.noConfusion he
      · rw [convert_file_err hfile h2 hmm]
        refine ⟨rfl, ?_, ?_, ?_⟩
        · intro q hq
          exact memP_makedirs_of_mem hq
        · show (findC (((dst, ([] : List Int)) ::
              (fs.makedirs (dirname dst)).files.filter
                (fun e => decide (e.1 ≠ dst))).filter
              (fun e => decide (e.1 ≠ dst))) dst).isSome = false
          rw [findC_filter_self]
          rfl
        · intro p hp
          have hfiles : ((((fs.makedirs (dirname dst)).writeFile dst
              ([] : List Int))).removeFile dst).files
              = ((dst, ([] : List Int)) ::
                  fs.files.filter (fun e => decide (e.1 ≠ dst))).filter
                  (fun e => decide (e.1 ≠ dst)) := rfl
          rw [hfiles, findC_filter_ne _ hp]
          show (if dst = p then some ([] : List Int)
              else findC (fs.files.filter (fun e => decide (e.1 ≠ dst))) p)
            = findC fs.files p
          rw [if_neg (Ne.symm hp), findC_filter_ne _ hp]

/-- Witness for C10: a failed conversion leaves the freshly created
destination parent directory in place. -/
theorem c10_dirs_persist_witness :
    memP (convert_file { files := [([r"in", r"a.dcm"], [9])], dirs := [[r"in"]] }
        [r"in", r"a.dcm"] [r"out", r"a.png"] MriStep.noPixel).2.dirs
      [r"out"] = true :=
  (c10_dirs_persist { files := [([r"in", r"a.dcm"], [9])], dirs := [[r"in"]] }
      [r"in", r"a.dcm"] [r"out", r"a.png"] MriStep.noPixel
      (.runtimeError (wrapHead ++ noPixelMsg)) (by decide) (by decide)
      rfl).2.1 [r"out"] (by decide)

/-- C4: in folder mode, when a file passes the DICOM-ness test and its
attempted conversion raises any error, that error is caught and counted as
exactly one failure (the success counter is unchanged), and the traversal
is a fold that always continues over the remaining files, the totals being
reported only after the whole list is exhausted. -/
theorem c4_fail_counted (mriFolder pngFolder : FPath) (s f : Nat) (fs : FS)
    (fd : FileDesc) (err : PyError)
    (hatt : isDicomExt (fileName fd) = true ∨ fd.probe = ProbeRes.yes)
    (he : (convert_file (fs.makedirs (dirname (dstPath pngFolder fd)))
        (srcPath mriFolder fd) (dstPath pngFolder fd) fd.step).1 = .error err) :
    folderStep mriFolder pngFolder (s, f, fs) fd
      = (s, f + 1,
         (convert_file (fs.makedirs (dirname (dstPath pngFolder fd)))
            (srcPath mriFolder fd) (dstPath pngFolder fd) fd.step).2) ∧
    (∀ (pre post : List FileDesc) (fs0 : FS),
      convert_folder fs0 mriFolder pngFolder (pre ++ fd :: post)
        = List.foldl (folderStep mriFolder pngFolder)
            (folderStep mriFolder pngFolder
              (List.foldl (folderStep mriFolder pngFolder)
                (0, 0, fs0.makedirs pngFolder) pre) fd)
            post) := by
  constructor
  · rw [folderStep_attempt hatt]
    exact attemptConvert_err he
  · intro pre post fs0
    simp [convert_folder, List.foldl_append]

/-- Witness for C4: a DICOM-extensioned file whose decode raises a generic
exception is counted as one failure on a concrete filesystem. -/
theorem c4_fail_counted_witness :
    folderStep [r"in"] [r"out"]
      (0, 0, { files := [([r"in", r"bad.dcm"], [7])], dirs := [] })
      { rel := [r"bad.dcm"], probe := ProbeRes.no, step := MriStep.decodeOther }
      = (0, 1,
         (convert_file
            (({ files := [([r"in", r"bad.dcm"], [7])], dirs := [] } : FS).makedirs
              (dirname (dstPath [r"out"]
                { rel := [r"bad.dcm"], probe := ProbeRes.no,
                  step := MriStep.decodeOther })))
            (srcPath [r"in"]
              { rel := [r"bad.dcm"], probe := ProbeRes.no,
                step := MriStep.decodeOther })
            (dstPath [r"out"]
              { rel := [r"bad.dcm"], probe := ProbeRes.no,
                step := MriStep.decodeOther })
            MriStep.decodeOther).2) :=
  (c4_fail_counted [r"in"] [r"out"] 0 0
    { files := [([r"in", r"bad.dcm"], [7])], dirs := [] }
    { rel := [r"bad.dcm"], probe := ProbeRes.no, step := MriStep.decodeOther }
    (.runtimeError (wrapHead ++ pyStr PyError.osError))
    (Or.inl (by decide)) rfl).1

end DicomPng
